import Mathlib

/-!
Shallow embedding of src/src/commands/filtercommands.cpp (Shotcut filter
undo/redo commands) and of the narrow collaborator interfaces it consumes.

Part 1: the graph locator (`FindProducerParser` + `findProducer`).
The MLT service graph is modelled as a finitely branching tree of nodes,
each carrying a kind (producer, playlist, tractor, chain, multitrack,
track, filter, transition, link), an optional UUID, and child nodes.
-/

/-- Node kinds visited by `Mlt::Parser`; `FindProducerParser` delegates
producer, playlist, tractor and chain starts to `on_start_producer`
(the only callback that can match), while multitrack, track, filter,
transition and link starts always return 0 (continue, never match). -/
inductive NKind where
  | producerK
  | playlistK
  | tractorK
  | chainK
  | multitrackK
  | trackK
  | filterK
  | transitionK
  | linkK
deriving DecidableEq, Repr

/-- A node of the MLT composition graph: a kind, an optional attached
UUID property, and the child nodes the depth-first parse descends into. -/
inductive MltNode where
  | mk (kind : NKind) (uuid : Option Nat) (children : List MltNode)
deriving Repr

def MltNode.kind : MltNode → NKind
  | .mk k _ _ => k

def MltNode.uuid : MltNode → Option Nat
  | .mk _ u _ => u

def MltNode.children : MltNode → List MltNode
  | .mk _ _ cs => cs

/-- Kinds whose start callback delegates to `on_start_producer`
(`FindProducerParser::on_start_playlist/tractor/chain` forward; all other
kinds return 0 unconditionally). -/
def matchableKind : NKind → Bool
  | .producerK => true
  | .playlistK => true
  | .tractorK => true
  | .chainK => true
  | _ => false

/-- `on_start_producer`: the visited node matches when it is one of the
delegating kinds and `MLT.uuid(*producer) == m_uuid`. -/
def isMatch (target : Nat) (n : MltNode) : Bool :=
  matchableKind n.kind && n.uuid == some target

mutual

/-- `FindProducerParser` run from `graphParser.start(root)`: visit the node
itself first (pre-order); a nonzero callback return aborts the walk with
the match, otherwise descend into the children left to right. -/
def findInNode (target : Nat) : MltNode → Option MltNode
  | .mk k u cs =>
    if isMatch target (.mk k u cs) then some (.mk k u cs)
    else findInChildren target cs

/-- Depth-first left-to-right descent into a child list, aborting on the
first child subtree that yields a match. -/
def findInChildren (target : Nat) : List MltNode → Option MltNode
  | [] => none
  | c :: cs =>
    match findInNode target c with
    | some p => some p
    | none => findInChildren target cs

end

/-- The three alternative graph roots consulted by `findProducer`:
`MAIN.multitrack()` guarded by `MAIN.isMultitrackValid()`,
`MAIN.playlist()` guarded by non-null and `count() > 0`, and the
standalone open clip `MLT.isClip() ? MLT.producer() : MLT.savedProducer()`
(modelled as `none` when that producer is invalid). -/
structure GraphRoots where
  multitrackValid : Bool
  multitrack : MltNode
  playlist : Option MltNode
  playlistCount : Nat
  openClip : Option MltNode

/-- `findProducer` (filtercommands.cpp lines 67-90): try the multitrack
root when valid, then the playlist root when present and non-empty, then
the standalone open clip when valid; return the first root's match, or an
invalid producer (`none`) when no root matched. -/
def findProducer (g : GraphRoots) (target : Nat) : Option MltNode :=
  match (if g.multitrackValid then findInNode target g.multitrack else none) with
  | some p => some p
  | none =>
    match (match g.playlist with
           | some pl => if g.playlistCount > 0 then findInNode target pl else none
           | none => none) with
    | some p => some p
    | none =>
      match g.openClip with
      | some clip => findInNode target clip
      | none => none

/-! Specification-side restatement of the locator, used for the C1
refinement: an explicit pre-order listing of each root's nodes, searched
for the first match, roots tried in the fixed priority order. -/

mutual

/-- Depth-first pre-order listing of a subtree's nodes (node first, then
children left to right). -/
def preorder : MltNode → List MltNode
  | .mk k u cs => .mk k u cs :: preorderList cs

/-- Pre-order listing of a forest, left to right. -/
def preorderList : List MltNode → List MltNode
  | [] => []
  | c :: cs => preorder c ++ preorderList cs

end

/-- The roots `findProducer` consults, in priority order, after their
guards: multitrack only if valid, playlist only if present and non-empty,
open clip only if valid. -/
def rootsInOrder (g : GraphRoots) : List MltNode :=
  (if g.multitrackValid then [g.multitrack] else [])
    ++ (match g.playlist with
        | some pl => if g.playlistCount > 0 then [pl] else []
        | none => [])
    ++ (match g.openClip with
        | some clip => [clip]
        | none => [])

/-- The locator as the spec states it: for each root in priority order,
scan that root's depth-first pre-order node listing for the first node
whose identifier matches; stop at the first root that yields a match;
`none` (NotFound) when no root contains a match. -/
def locateSpec (g : GraphRoots) (target : Nat) : Option MltNode :=
  (rootsInOrder g).foldr
    (fun r acc => ((preorder r).find? (isMatch target)).orElse (fun _ => acc))
    none

/-! C1 proofs: the early-abort visitor equals first-match over the
pre-order listing, and `findProducer` refines the spec's root-priority
search. -/

theorem find_opt_append {α : Type} (p : α → Bool) (l₁ l₂ : List α) :
    (l₁ ++ l₂).find? p = (l₁.find? p).orElse (fun _ => l₂.find? p) := by
  induction l₁ with
  | nil => simp [List.find?]
  | cons a l ih =>
    by_cases h : p a <;> simp [List.find?, h, ih, Option.orElse]

mutual

theorem findInNode_eq_find (t : Nat) :
    (n : MltNode) → findInNode t n = (preorder n).find? (isMatch t)
  | .mk k u cs => by
    rw [findInNode, preorder, List.find?]
    by_cases h : isMatch t (.mk k u cs)
    · simp [h]
    · simp only [h]
      simp only [Bool.false_eq_true, if_false]
      rw [findInChildren_eq_find t cs]

theorem findInChildren_eq_find (t : Nat) :
    (cs : List MltNode) → findInChildren t cs = (preorderList cs).find? (isMatch t)
  | [] => by rw [findInChildren, preorderList]; rfl
  | c :: cs => by
    rw [findInChildren, preorderList, find_opt_append]
    rw [findInNode_eq_find t c, findInChildren_eq_find t cs]
    cases (preorder c).find? (isMatch t) <;> simp [Option.orElse]

end
theorem orElse_eq_match {α : Type} (o : Option α) (f : Unit → Option α) :
    o.orElse f = match o with | some p => some p | none => f () := by
  cases o <;> rfl

/-- C1: for every logical identifier, the locator tries the three graph
roots in the fixed priority order (valid multitrack, then non-empty
playlist, then valid standalone open clip), searches each root by
depth-first pre-order traversal returning the first node whose attached
identifier matches, falls through to the next root only when the previous
root yields no match, and returns NotFound (`none`) when no root contains
a match: `findProducer` equals the spec-side `locateSpec`. -/
theorem C1_findProducer_refines_locateSpec (g : GraphRoots) (t : Nat) :
    findProducer g t = locateSpec g t := by
  obtain ⟨mv, mt, pl, pc, oc⟩ := g
  rw [findProducer, locateSpec, rootsInOrder]
  cases mv <;> rcases pl with _ | pl <;> rcases oc with _ | oc <;>
    by_cases hn : pc > 0 <;>
    dsimp only <;>
    simp only [hn, Bool.false_eq_true, Bool.true_eq_false, if_true, if_false,
      List.cons_append, List.nil_append, List.append_nil, List.foldr_cons,
      List.foldr_nil, ← findInNode_eq_find, orElse_eq_match] <;>
    (try cases findInNode t mt) <;> (try rfl) <;>
    (try cases findInNode t pl) <;> (try rfl) <;>
    (try cases findInNode t oc) <;> rfl

/-!
Part 2: the filter chain and the collaborator interfaces of section 6 of
the spec, consumed by the commands. The commands in filtercommands.cpp
mutate the resolved producer's attached filter chain only through these
narrow operations.
-/

/-- A filter (service) attached to a producer: validity, the engine
`_loader` marker, the hidden-from-undo marker, the disabled flag, and a
string key/value property store. -/
structure Filt where
  valid : Bool := true
  loader : Bool := false
  hidden : Bool := false
  disabled : Bool := false
  props : List (String × String) := []
deriving DecidableEq, Repr, Inhabited

/-- The attached filter chain of a producer, ordered by attachment index. -/
abbrev Chain := List Filt

/-- Modelled from the spec: `AttachedFiltersModel::doAddService(producer,
service, row)` inserts the filter at attachment index `row` (section 6:
the filter-chain model performs the actual attach once the live node is
found). -/
def doAddService (ch : Chain) (service : Filt) (row : Nat) : Chain :=
  ch.insertIdx row service

/-- Modelled from the spec: `AttachedFiltersModel::doRemoveService(producer,
row)` detaches the filter at attachment index `row`. -/
def doRemoveService (ch : Chain) (row : Nat) : Chain :=
  ch.eraseIdx row

/-- Modelled from the spec: `AttachedFiltersModel::doMoveService(producer,
from, to)` relocates the filter from one attachment index to another. -/
def doMoveService (ch : Chain) (fromRow toRow : Nat) : Chain :=
  match ch.get? fromRow with
  | some f => (ch.eraseIdx fromRow).insertIdx toRow f
  | none => ch

/-- Modelled from the spec: `AttachedFiltersModel::doSetDisabled(producer,
row, disabled)` sets the disabled flag of the filter at `row`. -/
def doSetDisabled : Chain → Nat → Bool → Chain
  | [], _, _ => []
  | f :: rest, 0, d => { f with disabled := d } :: rest
  | f :: rest, row + 1, d => f :: doSetDisabled rest row d

/-- Modelled from the spec: `AttachedFiltersModel::doGetService(producer,
row)` returns the filter at attachment index `row`. -/
def doGetService (ch : Chain) (row : Nat) : Option Filt :=
  ch.get? row

/-- Set one key of a property store, overwriting an existing binding for
that key or appending a fresh one. -/
def setProp (ps : List (String × String)) (k v : String) : List (String × String) :=
  if ps.any (fun p => p.1 = k) then
    ps.map (fun p => if p.1 = k then (k, v) else p)
  else
    ps ++ [(k, v)]

/-- `Mlt::Properties::inherit(that)`: copy every property of `src` into
`dst`, overwriting bindings for keys present in `src` and leaving other
keys of `dst` untouched. -/
def inheritProps (dst src : List (String × String)) : List (String × String) :=
  src.foldl (fun acc p => setProp acc p.1 p.2) dst

/-- Modelled from the spec: `MLT.pasteFilters(producer, filtersProducer)`
merges the deserialized filters onto the target's chain. -/
def pasteFilters (ch : Chain) (incoming : List Filt) : Chain :=
  ch ++ incoming

/-!
Part 3: the Add command (filtercommands.cpp lines 94-159).
Resolution is modelled by a `lookupOk : Bool` argument saying whether
`findProducer(m_producerUuid)` returns a valid producer, plus the
command's own record of whether the short-lived direct reference
`m_producer` is still valid; `Q_ASSERT(producer.is_valid())` on an
unresolved target is modelled as an abort (`none`) with no mutation.
-/

namespace Filter

/-- `AddCommand::AddType`: a lone single-filter add, a set member, or the
last member of a set. -/
inductive AddType where
  | AddSingle
  | AddSet
  | AddSetLast
deriving DecidableEq, Repr

/-- `Filter::AddCommand`: parallel row and service lists (`m_rows`,
`m_services`; the constructor pushes one of each and merging appends
more), the add mode `m_type`, and whether the short-lived direct producer
reference `m_producer` is still valid. -/
structure AddCommand where
  rows : List Nat
  services : List Filt
  type : AddType
  hasProducerRef : Bool
deriving DecidableEq, Repr

/-- The insertion loop of `AddCommand::redo`: insert service `i` at row
`i` in index order `0..n`. -/
def applyInserts : List (Nat × Filt) → Chain → Chain
  | [], ch => ch
  | (r, s) :: rest, ch => applyInserts rest (doAddService ch s r)

/-- The removal loop of `AddCommand::undo`: remove at rows `n..0`, so all
later rows are removed before row `i` is. -/
def undoRemoves : List (Nat × Filt) → Chain → Chain
  | [], ch => ch
  | (r, _) :: rest, ch => doRemoveService (undoRemoves rest ch) r

/-- Every row is within bounds of the chain it is inserted into (the
normal-operation precondition for attachment indices). -/
def rowsOkB : List (Nat × Filt) → Chain → Bool
  | [], _ => true
  | (r, s) :: rest, ch => decide (r ≤ ch.length) && rowsOkB rest (doAddService ch s r)

/-- Result of a successful `AddCommand::redo`: the updated command (its
direct reference cleared), the updated chain, and the `adjustFrom`
arguments of the `MLT.adjustFilters` calls that were made. -/
structure AddRedoResult where
  cmd : AddCommand
  chain : Chain
  adjustCalls : List Nat
deriving DecidableEq, Repr

/-- Result of a successful `AddCommand::undo`: the updated chain and the
(always empty) list of `MLT.adjustFilters` calls. -/
structure AddUndoResult where
  chain : Chain
  adjustCalls : List Nat
deriving DecidableEq, Repr

/-- `AddCommand::redo` (lines 115-131): use the cached direct reference if
still valid, else look up by UUID; assert the producer is valid (abort on
failure); record `adjustFrom = producer.filter_count()` before inserting;
insert the services at their rows in index order; call
`MLT.adjustFilters(producer, adjustFrom)` only for mode AddSetLast; clear
the direct reference so later calls look up by UUID. -/
def AddCommand.redo (c : AddCommand) (lookupOk : Bool) (ch : Chain) :
    Option AddRedoResult :=
  if c.hasProducerRef || lookupOk then
    let adjustFrom := ch.length
    some { cmd := { c with hasProducerRef := false },
           chain := applyInserts (c.rows.zip c.services) ch,
           adjustCalls := if c.type = AddType.AddSetLast then [adjustFrom] else [] }
  else none

/-- `AddCommand::undo` (lines 133-142): always resolves by UUID lookup
(the direct reference is not consulted); assert the producer is valid
(abort on failure); remove the services in reverse insertion order; no
adjustment pass. -/
def AddCommand.undo (c : AddCommand) (lookupOk : Bool) (ch : Chain) :
    Option AddUndoResult :=
  if lookupOk then
    some { chain := undoRemoves (c.rows.zip c.services) ch, adjustCalls := [] }
  else none

/-- `AddCommand::mergeWith` (lines 144-159): reject unless this command's
mode is AddSet and the incoming command's mode is AddSet or AddSetLast
(the `id()` equality check always passes between two AddCommands and is
omitted); on accept, adopt the incoming mode and append the incoming
command's single (front) row and service. Returns the accept flag and the
possibly updated receiver; a rejected merge leaves the receiver unchanged
and never mutates the incoming command. -/
def AddCommand.mergeWith (c that : AddCommand) : Bool × AddCommand :=
  if c.type = AddType.AddSet
      ∧ (that.type = AddType.AddSet ∨ that.type = AddType.AddSetLast) then
    (true,
     { c with
       type := that.type,
       rows := c.rows ++ [that.rows.headI],
       services := c.services ++ [that.services.headI] })
  else
    (false, c)

/-- Undoing the insertions in reverse order restores the pre-insertion
chain exactly. -/
theorem undoRemoves_applyInserts (ps : List (Nat × Filt)) (ch : Chain) :
    undoRemoves ps (applyInserts ps ch) = ch := by
  induction ps generalizing ch with
  | nil => rfl
  | cons p rest ih =>
    obtain ⟨r, s⟩ := p
    rw [applyInserts, undoRemoves, ih, doAddService, doRemoveService,
      List.eraseIdx_insertIdx]

/-- With in-bounds rows, each insertion grows the chain by one. -/
theorem applyInserts_length (ps : List (Nat × Filt)) (ch : Chain)
    (h : rowsOkB ps ch = true) :
    (applyInserts ps ch).length = ch.length + ps.length := by
  induction ps generalizing ch with
  | nil => simp [applyInserts]
  | cons p rest ih =>
    obtain ⟨r, s⟩ := p
    rw [rowsOkB, Bool.and_eq_true, decide_eq_true_eq] at h
    rw [applyInserts, ih _ h.2, doAddService,
      List.length_insertIdx _ _ h.1, List.length_cons]
    omega

end Filter

/-- A fresh default filter used by concrete witness inputs. -/
def fNew : Filt := {}

/-- C2: for an Add command holding rows and services, a successful apply
clears the direct reference and inserts the services at their rows in
index order; reverse removes them in strict reverse order, restoring the
pre-apply chain exactly (so with in-bounds rows the chain after reverse
has one fewer filter per inserted service than after apply); a further
apply with the direct reference cleared aborts unless the identifier
lookup succeeds, and on lookup success re-attaches each service at the
same index, reproducing the post-apply chain. -/
theorem C2_add_apply_reverse (c : Filter.AddCommand) (ok : Bool) (ch : Chain)
    (res : Filter.AddRedoResult) (h : c.redo ok ch = some res) :
    res.cmd = { c with hasProducerRef := false }
    ∧ res.chain = Filter.applyInserts (c.rows.zip c.services) ch
    ∧ res.cmd.undo true res.chain = some ⟨ch, []⟩
    ∧ (Filter.rowsOkB (c.rows.zip c.services) ch = true →
        res.chain.length = ch.length + (c.rows.zip c.services).length)
    ∧ res.cmd.redo false ch = none
    ∧ res.cmd.redo true ch = some ⟨res.cmd, res.chain, res.adjustCalls⟩ := by
  rw [Filter.AddCommand.redo] at h
  by_cases hok : (c.hasProducerRef || ok) = true
  · rw [if_pos hok] at h
    injection h with h
    subst h
    refine ⟨rfl, rfl, ?_, ?_, ?_, ?_⟩
    · simp [Filter.AddCommand.undo, Filter.undoRemoves_applyInserts]
    · intro hrows
      exact Filter.applyInserts_length _ _ hrows
    · rfl
    · rfl
  · rw [if_neg hok] at h
    exact absurd h (by simp)

theorem C2_add_apply_reverse_witness :
    Filter.AddCommand.undo ⟨[0], [fNew], .AddSingle, false⟩ true [fNew]
      = some ⟨[], []⟩ :=
  (C2_add_apply_reverse ⟨[0], [fNew], .AddSingle, true⟩ false []
    ⟨⟨[0], [fNew], .AddSingle, false⟩, [fNew], []⟩ rfl).2.2.1

/-- C5: an Add command accepts a merge exactly when the receiver's mode is
AddSet and the incoming mode is AddSet or AddSetLast; an accepted merge
appends the incoming command's single row and service and adopts the
incoming mode; a rejected merge (in particular AddSingle offered to an
AddSet receiver) leaves the receiver unchanged. -/
theorem C5_add_merge (c that : Filter.AddCommand) :
    ((c.mergeWith that).1 = true ↔
      (c.type = Filter.AddType.AddSet
        ∧ (that.type = Filter.AddType.AddSet
            ∨ that.type = Filter.AddType.AddSetLast)))
    ∧ (c.mergeWith that).2 =
        (if (c.mergeWith that).1 then
          { c with
            type := that.type,
            rows := c.rows ++ [that.rows.headI],
            services := c.services ++ [that.services.headI] }
         else c) := by
  by_cases hcond : (c.type = Filter.AddType.AddSet
      ∧ (that.type = Filter.AddType.AddSet
          ∨ that.type = Filter.AddType.AddSetLast)) <;>
    simp [Filter.AddCommand.mergeWith, hcond]

/-- C6 counterexample: an AddSetLast command with row 0 applied to a chain
already holding two filters passes `adjustFrom = 2` (the pre-insertion
filter count) to the adjustment pass, not the first inserted index 0. -/
theorem C6_counterexample :
    (Filter.AddCommand.redo ⟨[0], [fNew], .AddSetLast, true⟩ true
        [fNew, fNew]).map Filter.AddRedoResult.adjustCalls = some [2]
    ∧ ((some [2] : Option (List Nat)) ≠ some [0]) :=
  ⟨rfl, by decide⟩

/-- C6 amended: an Add command of mode AddSetLast triggers exactly one
post-insert adjustment pass, only on apply, after all of the command's
insertions, and the pass covers all filters from the chain's
pre-insertion filter count onward (not from the first inserted index);
modes AddSingle and AddSet trigger none, and reverse never triggers one. -/
theorem C6_add_adjust (c : Filter.AddCommand) (ok : Bool) (ch : Chain)
    (res : Filter.AddRedoResult) (h : c.redo ok ch = some res) :
    res.adjustCalls =
      (if c.type = Filter.AddType.AddSetLast then [ch.length] else [])
    ∧ (∀ (ok2 : Bool) (ch2 : Chain) (ures : Filter.AddUndoResult),
        c.undo ok2 ch2 = some ures → ures.adjustCalls = []) := by
  rw [Filter.AddCommand.redo] at h
  by_cases hok : (c.hasProducerRef || ok) = true
  · rw [if_pos hok] at h
    injection h with h
    subst h
    refine ⟨rfl, ?_⟩
    intro ok2 ch2 ures hu
    rw [Filter.AddCommand.undo] at hu
    by_cases hok2 : ok2 = true
    · rw [if_pos hok2] at hu
      injection hu with hu
      subst hu
      rfl
    · rw [if_neg hok2] at hu
      exact absurd hu (by simp)
  · rw [if_neg hok] at h
    exact absurd h (by simp)

theorem C6_add_adjust_witness :
    Filter.AddRedoResult.adjustCalls
      ⟨⟨[2], [fNew], .AddSetLast, false⟩, [fNew, fNew, fNew], [2]⟩ = [2] :=
  ((C6_add_adjust ⟨[2], [fNew], .AddSetLast, true⟩ true [fNew, fNew]
      ⟨⟨[2], [fNew], .AddSetLast, false⟩, [fNew, fNew, fNew], [2]⟩ rfl).1).trans rfl

/-!
Part 4: the Remove, Move and Disable/Enable commands
(filtercommands.cpp lines 161-295), under the same resolution model as
the Add command.
-/

namespace Filter

/-- `Filter::RemoveCommand`: one row, the detached service kept for undo,
and the short-lived direct reference flag. -/
structure RemoveCommand where
  row : Nat
  service : Filt
  hasProducerRef : Bool
deriving DecidableEq, Repr

/-- `RemoveCommand::redo` (lines 176-187): resolve via the direct
reference or by lookup, assert validity (abort on failure), detach the
filter at the row, clear the direct reference. -/
def RemoveCommand.redo (c : RemoveCommand) (lookupOk : Bool) (ch : Chain) :
    Option (RemoveCommand × Chain) :=
  if c.hasProducerRef || lookupOk then
    some ({ c with hasProducerRef := false }, doRemoveService ch c.row)
  else none

/-- `RemoveCommand::undo` (lines 189-196): assert the kept service is
valid and resolve by lookup (aborts on either failure), then re-insert
the kept service at the same row. -/
def RemoveCommand.undo (c : RemoveCommand) (lookupOk : Bool) (ch : Chain) :
    Option Chain :=
  if c.service.valid then
    if lookupOk then some (doAddService ch c.service c.row) else none
  else none

/-- `Filter::MoveCommand`: source and destination rows plus the
short-lived direct reference flag. -/
structure MoveCommand where
  fromRow : Nat
  toRow : Nat
  hasProducerRef : Bool
deriving DecidableEq, Repr

/-- `MoveCommand::redo` (lines 210-225): resolve via the direct reference
or by lookup, assert validity (abort on failure), relocate the filter
from `fromRow` to `toRow`, clear the direct reference. -/
def MoveCommand.redo (c : MoveCommand) (lookupOk : Bool) (ch : Chain) :
    Option (MoveCommand × Chain) :=
  if c.hasProducerRef || lookupOk then
    some ({ c with hasProducerRef := false }, doMoveService ch c.fromRow c.toRow)
  else none

/-- `MoveCommand::undo` (lines 227-235): resolve by lookup, assert
validity (abort on failure), relocate the filter back from `toRow` to
`fromRow`. -/
def MoveCommand.undo (c : MoveCommand) (lookupOk : Bool) (ch : Chain) :
    Option Chain :=
  if lookupOk then some (doMoveService ch c.toRow c.fromRow) else none

/-- `Filter::DisableCommand`: the row, the flag value `m_disabled` the
command was constructed with, and the short-lived direct reference flag. -/
structure DisableCommand where
  row : Nat
  disabled : Bool
  hasProducerRef : Bool
deriving DecidableEq, Repr

/-- `DisableCommand::redo` (lines 253-268): resolve via the direct
reference or by lookup, assert validity (abort on failure), set the
row's disabled flag to `m_disabled`, clear the direct reference. -/
def DisableCommand.redo (c : DisableCommand) (lookupOk : Bool) (ch : Chain) :
    Option (DisableCommand × Chain) :=
  if c.hasProducerRef || lookupOk then
    some ({ c with hasProducerRef := false }, doSetDisabled ch c.row c.disabled)
  else none

/-- `DisableCommand::undo` (lines 270-278): resolve by lookup, assert
validity (abort on failure), set the row's disabled flag to the negation
of `m_disabled` (not to a recorded prior value). -/
def DisableCommand.undo (c : DisableCommand) (lookupOk : Bool) (ch : Chain) :
    Option Chain :=
  if lookupOk then some (doSetDisabled ch c.row (!c.disabled)) else none

/-- `DisableCommand::mergeWith` (lines 280-295): merging is explicitly
not implemented; always rejected with no mutation. -/
def DisableCommand.mergeWith (c _that : DisableCommand) : Bool × DisableCommand :=
  (false, c)

/-- Setting the flag at a row where it already holds value `b` leaves the
chain unchanged. -/
theorem doSetDisabled_id : ∀ (ch : Chain) (row : Nat) (b : Bool) (f : Filt),
    ch.get? row = some f → f.disabled = b → doSetDisabled ch row b = ch
  | [], row, b, f, hget, _ => by simp [List.get?] at hget
  | g :: rest, 0, b, f, hget, hflag => by
    rw [List.get?] at hget
    injection hget with hget
    subst hget
    subst hflag
    rw [doSetDisabled]
  | g :: rest, row + 1, b, f, hget, hflag => by
    rw [List.get?] at hget
    rw [doSetDisabled, doSetDisabled_id rest row b f hget hflag]

/-- Setting the flag twice keeps only the second value. -/
theorem doSetDisabled_twice : ∀ (ch : Chain) (row : Nat) (b b' : Bool),
    doSetDisabled (doSetDisabled ch row b) row b' = doSetDisabled ch row b'
  | [], _, _, _ => rfl
  | g :: rest, 0, b, b' => rfl
  | g :: rest, row + 1, b, b' => by
    rw [doSetDisabled, doSetDisabled, doSetDisabled,
      doSetDisabled_twice rest row b b']

/-- Reading back the row just written. -/
theorem doSetDisabled_get : ∀ (ch : Chain) (row : Nat) (b : Bool) (f : Filt),
    ch.get? row = some f →
    (doSetDisabled ch row b).get? row = some { f with disabled := b }
  | [], row, b, f, hget => by simp [List.get?] at hget
  | g :: rest, 0, b, f, hget => by
    rw [List.get?] at hget
    injection hget with hget
    subst hget
    rfl
  | g :: rest, row + 1, b, f, hget => by
    rw [List.get?] at hget
    rw [doSetDisabled, List.get?, doSetDisabled_get rest row b f hget]

end Filter

/-- The filter whose disabled flag is set, used by concrete inputs. -/
def fDis : Filt := { fNew with disabled := true }

/-- C7 counterexample: a Disable command with flag value `true` applied to
a chain whose filter at row 0 is already disabled does not restore the
prior flag on reverse: apply leaves the flag `true`, reverse forces it to
`false`, which differs from the pre-apply value `true`. -/
theorem C7_counterexample :
    Filter.DisableCommand.redo ⟨0, true, true⟩ true [fDis]
      = some (⟨0, true, false⟩, [fDis])
    ∧ Filter.DisableCommand.undo ⟨0, true, false⟩ true [fDis] = some [fNew]
    ∧ [fNew] ≠ [fDis] := by
  refine ⟨rfl, rfl, ?_⟩
  decide

/-- C7 amended: apply sets the target filter's disabled flag to the
constructed value `d` and reverse sets it to `!d` (not to a recorded
prior value); consequently, whenever the filter's flag before apply is
`!d` (the normal toggling precondition), the flag after apply-then-reverse
equals its pre-apply value, the whole chain being restored exactly. -/
theorem C7_disable_apply_reverse (row : Nat) (d hasRef ok : Bool) (ch : Chain)
    (f : Filt) (hok : (hasRef || ok) = true) (hget : ch.get? row = some f)
    (hflag : f.disabled = !d) :
    Filter.DisableCommand.redo ⟨row, d, hasRef⟩ ok ch
      = some (⟨row, d, false⟩, doSetDisabled ch row d)
    ∧ (doSetDisabled ch row d).get? row = some { f with disabled := d }
    ∧ Filter.DisableCommand.undo ⟨row, d, false⟩ true (doSetDisabled ch row d)
      = some ch := by
  refine ⟨?_, ?_, ?_⟩
  · rw [Filter.DisableCommand.redo]
    simp only [hok, if_true]
  · exact Filter.doSetDisabled_get ch row d f hget
  · rw [Filter.DisableCommand.undo, if_pos rfl, Filter.doSetDisabled_twice,
      Filter.doSetDisabled_id ch row (!d) f hget hflag]

theorem C7_disable_apply_reverse_witness :
    Filter.DisableCommand.undo ⟨0, true, false⟩ true (doSetDisabled [fNew] 0 true)
      = some [fNew] :=
  (C7_disable_apply_reverse 0 true true true [fNew] fNew rfl rfl rfl).2.2

/-!
Part 5: the parameter-change command `UndoParameterCommand`
(filtercommands.cpp lines 346-413). Property snapshots are string
key/value lists; `Mlt::Properties::inherit` is `inheritProps`.
-/

namespace Filter

/-- `Filter::UndoParameterCommand`: the row, the target's UUID, the
display text, the "before" snapshot captured at construction, the "after"
snapshot (captured at construction and extended by `update`), and the
`m_firstRedo` flag. -/
structure UndoParameterCommand where
  row : Nat
  producerUuid : Nat
  text : String
  before : List (String × String)
  after : List (String × String)
  firstRedo : Bool
deriving DecidableEq, Repr

/-- Apply `service.inherit(snapshot)` to the filter at a row: overwrite
that filter's properties with the snapshot's bindings, leaving its other
keys and every other filter untouched (a no-op beyond the chain's end,
where `doGetService` yields no valid service to mutate). -/
def inheritAt : Chain → Nat → List (String × String) → Chain
  | [], _, _ => []
  | f :: rest, 0, ps => { f with props := inheritProps f.props ps } :: rest
  | f :: rest, row + 1, ps => f :: inheritAt rest row ps

/-- `UndoParameterCommand::redo` (lines 374-389): on the very first call
only clear `m_firstRedo` — no lookup, no mutation, no notification
(the Bool result) — and on every later call resolve by lookup (abort on
failure), overwrite the row's service properties with the "after"
snapshot via `inherit`, and notify the controller. -/
def UndoParameterCommand.redo (c : UndoParameterCommand) (lookupOk : Bool)
    (ch : Chain) : Option (UndoParameterCommand × Chain × Bool) :=
  if c.firstRedo then
    some ({ c with firstRedo := false }, ch, false)
  else if lookupOk then
    some (c, inheritAt ch c.row c.after, true)
  else none

/-- `UndoParameterCommand::undo` (lines 391-401): resolve by lookup
(abort on failure), overwrite the row's service properties with the
"before" snapshot via `inherit`, and notify the controller. -/
def UndoParameterCommand.undo (c : UndoParameterCommand) (lookupOk : Bool)
    (ch : Chain) : Option (Chain × Bool) :=
  if lookupOk then some (inheritAt ch c.row c.before, true) else none

/-- `UndoParameterCommand::mergeWith` (lines 403-413): reject unless the
incoming command has the same row, the same producer UUID and the same
display text (the `id()` equality check always passes between two
UndoParameterCommands and is omitted); on accept, replace this command's
"after" snapshot with the incoming one, keeping this command's "before"
snapshot. -/
def UndoParameterCommand.mergeWith (c that : UndoParameterCommand) :
    Bool × UndoParameterCommand :=
  if that.row = c.row ∧ that.producerUuid = c.producerUuid
      ∧ that.text = c.text then
    (true, { c with after := that.after })
  else
    (false, c)

end Filter

/-- C3: the very first apply of a parameter-change command is a no-op
that only consumes the first-redo flag (the chain is unchanged and the
controller is not notified); every subsequent apply resolves the live
node by identifier (aborting when the lookup fails) and overwrites the
target service's properties with the "after" snapshot, then notifies the
controller; every reverse resolves the live node and overwrites them
with the "before" snapshot, then notifies the controller. -/
theorem C3_param_apply_reverse (c : Filter.UndoParameterCommand) (ok : Bool)
    (ch : Chain) :
    (c.firstRedo = true →
      c.redo ok ch = some ({ c with firstRedo := false }, ch, false))
    ∧ (c.firstRedo = false →
        c.redo true ch = some (c, Filter.inheritAt ch c.row c.after, true)
        ∧ c.redo false ch = none)
    ∧ c.undo true ch = some (Filter.inheritAt ch c.row c.before, true) := by
  refine ⟨?_, ?_, rfl⟩
  · intro h
    rw [Filter.UndoParameterCommand.redo, if_pos h]
  · intro h
    rw [Filter.UndoParameterCommand.redo, Filter.UndoParameterCommand.redo]
    simp [h]

theorem C3_param_apply_reverse_witness :
    Filter.UndoParameterCommand.redo ⟨0, 7, "c", [], [], true⟩ false [fNew]
      = some (⟨0, 7, "c", [], [], false⟩, [fNew], false) :=
  (C3_param_apply_reverse ⟨0, 7, "c", [], [], true⟩ false [fNew]).1 rfl

/-- C4: two parameter-change commands merge exactly when they have the
same row, the same producer UUID and the same display text; an accepted
merge replaces the receiver's "after" snapshot with the incoming one and
keeps the receiver's "before" snapshot, so the merged command's reverse
overwrites with the state from before the first edit and its (non-first)
apply overwrites with the state from after the second edit. -/
theorem C4_param_merge (c that : Filter.UndoParameterCommand) :
    ((c.mergeWith that).1 = true ↔
      (that.row = c.row ∧ that.producerUuid = c.producerUuid
        ∧ that.text = c.text))
    ∧ (c.mergeWith that).2 =
        (if (c.mergeWith that).1 then { c with after := that.after } else c)
    ∧ ((c.mergeWith that).1 = true → ∀ ch : Chain,
        (c.mergeWith that).2.undo true ch
          = some (Filter.inheritAt ch c.row c.before, true)
        ∧ ((c.mergeWith that).2.firstRedo = false →
            (c.mergeWith that).2.redo true ch
              = some ((c.mergeWith that).2,
                      Filter.inheritAt ch c.row that.after, true))) := by
  by_cases hcond : (that.row = c.row ∧ that.producerUuid = c.producerUuid
      ∧ that.text = c.text)
  · refine ⟨?_, ?_, ?_⟩
    · simp [Filter.UndoParameterCommand.mergeWith, hcond]
    · simp [Filter.UndoParameterCommand.mergeWith, hcond]
    · intro _ ch
      constructor
      · simp [Filter.UndoParameterCommand.mergeWith, hcond,
          Filter.UndoParameterCommand.undo]
      · intro hfr
        rw [Filter.UndoParameterCommand.mergeWith, if_pos hcond] at hfr ⊢
        dsimp only at hfr
        rw [Filter.UndoParameterCommand.redo]
        simp [hfr]
  · simp [Filter.UndoParameterCommand.mergeWith, hcond]

theorem C4_param_merge_witness :
    Filter.UndoParameterCommand.undo ⟨2, 7, "c", [("a", "0")], [("a", "2")], false⟩
        true [fNew]
      = some (Filter.inheritAt [fNew] 2 [("a", "0")], true)
    ∧ Filter.UndoParameterCommand.redo ⟨2, 7, "c", [("a", "0")], [("a", "2")], false⟩
        true [fNew]
      = some (⟨2, 7, "c", [("a", "0")], [("a", "2")], false⟩,
              Filter.inheritAt [fNew] 2 [("a", "2")], true) := by
  have h := (C4_param_merge ⟨2, 7, "c", [("a", "0")], [("a", "1")], false⟩
      ⟨2, 7, "c", [("a", "0")], [("a", "2")], false⟩).2.2 rfl [fNew]
  exact ⟨h.1, h.2 rfl⟩

/-!
Part 6: the Paste command (filtercommands.cpp lines 297-344).
Deserializing an interchange-text snapshot ("xml-string") yields either
an invalid producer or a producer carrying a filter list; observer
notification (`filtersPasted`) is counted in the result.
-/

namespace Filter

/-- An interchange-text snapshot as `Mlt::Producer(profile, "xml-string",
text)` deserializes it: a validity flag and the carried filters. -/
structure XmlSnapshot where
  valid : Bool
  filters : List Filt
deriving DecidableEq, Repr

/-- `Filter::PasteCommand`: the incoming snapshot `m_xml` and the
"before" snapshot `m_beforeXml` captured at construction. The producer is
always resolved by UUID lookup (no direct-reference field). -/
structure PasteCommand where
  xml : XmlSnapshot
  beforeXml : XmlSnapshot
deriving DecidableEq, Repr

/-- The removal loop of `PasteCommand::undo` (lines 328-336): walk the
chain detaching every valid filter that carries neither the `_loader`
marker nor the hidden marker (the `i--` after `detach` compensates for
the shift, so this is one linear pass keeping loader/hidden/invalid
filters in order). -/
def removeNonKept : Chain → Chain
  | [] => []
  | f :: rest =>
    if f.valid && !f.loader && !f.hidden then removeNonKept rest
    else f :: removeNonKept rest

/-- `PasteCommand::redo` (lines 309-320): resolve by lookup (abort on
failure); merge the incoming snapshot's filters onto the target only when
it deserializes to a valid producer with at least one filter; emit
`filtersPasted` exactly once regardless (the `1` in the result). -/
def PasteCommand.redo (c : PasteCommand) (lookupOk : Bool) (ch : Chain) :
    Option (Chain × Nat) :=
  if lookupOk then
    some ((if c.xml.valid = true ∧ 0 < c.xml.filters.length
           then pasteFilters ch c.xml.filters
           else ch), 1)
  else none

/-- `PasteCommand::undo` (lines 322-344): resolve by lookup (abort on
failure); unconditionally remove all non-loader, non-hidden filters; then
merge the "before" snapshot's filters back only when it deserializes to a
valid producer with at least one filter; emit `filtersPasted` exactly
once regardless. -/
def PasteCommand.undo (c : PasteCommand) (lookupOk : Bool) (ch : Chain) :
    Option (Chain × Nat) :=
  if lookupOk then
    some ((if c.beforeXml.valid = true ∧ 0 < c.beforeXml.filters.length
           then pasteFilters (removeNonKept ch) c.beforeXml.filters
           else removeNonKept ch), 1)
  else none

end Filter

/-- C9: when the incoming snapshot deserializes to an invalid producer or
to zero filters, apply performs no paste-merge (the chain is returned
unchanged) and raises no error; when the captured "before" snapshot does,
reverse performs no paste-merge after its removal pass and raises no
error. -/
theorem C9_paste_empty_snapshot (c : Filter.PasteCommand) (ch : Chain) :
    (¬(c.xml.valid = true ∧ 0 < c.xml.filters.length) →
      c.redo true ch = some (ch, 1))
    ∧ (¬(c.beforeXml.valid = true ∧ 0 < c.beforeXml.filters.length) →
      c.undo true ch = some (Filter.removeNonKept ch, 1)) := by
  constructor
  · intro h
    rw [Filter.PasteCommand.redo, if_pos rfl, if_neg h]
  · intro h
    rw [Filter.PasteCommand.undo, if_pos rfl, if_neg h]

theorem C9_paste_empty_snapshot_witness :
    Filter.PasteCommand.redo ⟨⟨false, [fNew]⟩, ⟨true, []⟩⟩ true [fDis]
      = some ([fDis], 1)
    ∧ Filter.PasteCommand.undo ⟨⟨false, [fNew]⟩, ⟨true, []⟩⟩ true [fDis]
      = some (Filter.removeNonKept [fDis], 1) :=
  ⟨(C9_paste_empty_snapshot ⟨⟨false, [fNew]⟩, ⟨true, []⟩⟩ [fDis]).1 (by decide),
   (C9_paste_empty_snapshot ⟨⟨false, [fNew]⟩, ⟨true, []⟩⟩ [fDis]).2 (by decide)⟩

/-- C10: with the target resolved, every Paste apply and every Paste
reverse emits the pasted-filters notification exactly once (the `1`),
whether or not the relevant snapshot is valid and non-empty; and reverse
always performs the removal pass over non-loader, non-hidden filters,
even when the "before" snapshot contributes nothing. -/
theorem C10_paste_notify (c : Filter.PasteCommand) (ch : Chain) :
    c.redo true ch
      = some ((if c.xml.valid = true ∧ 0 < c.xml.filters.length
               then pasteFilters ch c.xml.filters
               else ch), 1)
    ∧ c.undo true ch
      = some ((if c.beforeXml.valid = true ∧ 0 < c.beforeXml.filters.length
               then pasteFilters (Filter.removeNonKept ch) c.beforeXml.filters
               else Filter.removeNonKept ch), 1) :=
  ⟨rfl, rfl⟩

/-- C8: for every command kind, an apply or reverse invoked when the
target cannot be resolved (no usable direct reference and the identifier
lookup fails) aborts with no mutation (`none`); conversely, whenever the
target resolves (via the still-valid direct reference or via lookup), the
invalid-producer assertion branch is not taken (the result is not
`none`), given for Remove-undo its separate kept-service validity
precondition, and for the parameter command's non-first applies (its very
first apply never resolves at all). -/
theorem C8_resolution_failure_aborts (ch : Chain) :
    (∀ c : Filter.AddCommand, c.hasProducerRef = false → c.redo false ch = none)
    ∧ (∀ c : Filter.AddCommand, c.undo false ch = none)
    ∧ (∀ c : Filter.AddCommand, c.redo true ch ≠ none)
    ∧ (∀ c : Filter.AddCommand, c.hasProducerRef = true → c.redo false ch ≠ none)
    ∧ (∀ c : Filter.AddCommand, c.undo true ch ≠ none)
    ∧ (∀ c : Filter.RemoveCommand, c.hasProducerRef = false → c.redo false ch = none)
    ∧ (∀ c : Filter.RemoveCommand, c.undo false ch = none)
    ∧ (∀ c : Filter.RemoveCommand, c.redo true ch ≠ none)
    ∧ (∀ c : Filter.RemoveCommand, c.hasProducerRef = true → c.redo false ch ≠ none)
    ∧ (∀ c : Filter.RemoveCommand, c.service.valid = true → c.undo true ch ≠ none)
    ∧ (∀ c : Filter.MoveCommand, c.hasProducerRef = false → c.redo false ch = none)
    ∧ (∀ c : Filter.MoveCommand, c.undo false ch = none)
    ∧ (∀ c : Filter.MoveCommand, c.redo true ch ≠ none)
    ∧ (∀ c : Filter.MoveCommand, c.undo true ch ≠ none)
    ∧ (∀ c : Filter.DisableCommand, c.hasProducerRef = false → c.redo false ch = none)
    ∧ (∀ c : Filter.DisableCommand, c.undo false ch = none)
    ∧ (∀ c : Filter.DisableCommand, c.redo true ch ≠ none)
    ∧ (∀ c : Filter.DisableCommand, c.undo true ch ≠ none)
    ∧ (∀ c : Filter.PasteCommand, c.redo false ch = none)
    ∧ (∀ c : Filter.PasteCommand, c.undo false ch = none)
    ∧ (∀ c : Filter.PasteCommand, c.redo true ch ≠ none)
    ∧ (∀ c : Filter.PasteCommand, c.undo true ch ≠ none)
    ∧ (∀ c : Filter.UndoParameterCommand, c.firstRedo = false → c.redo false ch = none)
    ∧ (∀ c : Filter.UndoParameterCommand, c.undo false ch = none)
    ∧ (∀ c : Filter.UndoParameterCommand, c.firstRedo = false → c.redo true ch ≠ none)
    ∧ (∀ c : Filter.UndoParameterCommand, c.undo true ch ≠ none) := by
  refine ⟨?_, ?_, ?_, ?_, ?_, ?_, ?_, ?_, ?_, ?_, ?_, ?_, ?_, ?_, ?_, ?_, ?_,
    ?_, ?_, ?_, ?_, ?_, ?_, ?_, ?_, ?_⟩ <;>
    intro c <;>
    first
      | (simp [Filter.AddCommand.redo, Filter.AddCommand.undo,
          Filter.RemoveCommand.redo, Filter.RemoveCommand.undo,
          Filter.MoveCommand.redo, Filter.MoveCommand.undo,
          Filter.DisableCommand.redo, Filter.DisableCommand.undo,
          Filter.PasteCommand.redo, Filter.PasteCommand.undo,
          Filter.UndoParameterCommand.redo, Filter.UndoParameterCommand.undo]
         done)
      | (intro hf
         rw [Filter.UndoParameterCommand.redo]
         simp [hf])

theorem C8_resolution_failure_aborts_witness :
    Filter.AddCommand.redo ⟨[0], [fNew], .AddSingle, false⟩ false [fNew] = none :=
  (C8_resolution_failure_aborts [fNew]).1 ⟨[0], [fNew], .AddSingle, false⟩ rfl
